import Mathlib

/-!
Verification of the `pdeathsignal` C extension module (src/pdeathsignal.c).

The development shallowly embeds the two core components of the module:

* the signal-set codec `sigign_converter` (with its helper
  `pylong_to_signum`), which turns the Python-level `sigign` argument into
  a 64-bit signal bitmask, and

* the spawn trampoline `exec_trampoline` together with the caller-side
  orchestration in `cloneandexecve_impl`.

Machine integers are modelled as `Nat`/`Int`; Python objects relevant to
the claims are modelled by the small inductive `PyObj`; OS calls
(`setsid`, `prctl`, `clone`, `signal`, the `exec*` family, `waitpid`) are
modelled by an outcome oracle `Sys`/`CallerSys`, since their success or
failure is decided by the kernel, not by this code.  Everything else is
translated directly from the C source.
-/

namespace Pdeathsignal

/-- Linux x86-64 value of the C macro `SIGKILL`. -/
def SIGKILL : Nat := 9

/-- Linux x86-64 value of the C macro `SIGSTOP`. -/
def SIGSTOP : Nat := 19

/-- Value of glibc's `_NSIG` on Linux x86-64, as used by
`pylong_to_signum` for its range check. -/
def NSIG : Int := 65

/-- Python exception kinds that the modelled code can raise. -/
inductive PyErrKind where
  | typeError
  | overflowError
  /-- Marker for C-level undefined behavior reached while evaluating an
  expression (see `accumulate_signum_bit`). -/
  | undefinedBehavior
deriving DecidableEq, Repr

/-- Python values relevant to the `sigign` argument: `None` (or an absent
argument, which the converters treat identically), a bool, an int, or a
sequence of ints.  Sequences with non-integer elements are out of scope of
the claims and not modelled. -/
inductive PyObj where
  | pynone
  | pybool (b : Bool)
  | pyint (n : Int)
  | pylist (xs : List Int)
deriving DecidableEq, Repr

/-- Model of CPython's `PyObject_IsTrue` on the values of `PyObj`. -/
def pyIsTrue : PyObj → Bool
  | .pynone => false
  | .pybool b => b
  | .pyint n => n != 0
  | .pylist xs => !xs.isEmpty

/-- Model of `PyLong_AsUnsignedLongLong`: a bool converts via its int
value (`True` is the integer 1), an int in `[0, 2^64)` converts to itself,
an out-of-range int raises `OverflowError`, and a non-integer raises
`TypeError`. -/
def pyAsUInt64 : PyObj → Except PyErrKind Nat
  | .pybool b => .ok (if b then 1 else 0)
  | .pyint n => if n < 0 ∨ 2 ^ 64 ≤ n then .error .overflowError else .ok n.toNat
  | _ => .error .typeError

/-- Model of `pylong_to_signum` (src/pdeathsignal.c:226-244) applied to an
integer element: the value must satisfy `0 <= value <= _NSIG`, otherwise the
conversion fails (with `OverflowError` raised by `PyErr_Format` in the
generic case; the `value == -1` no-exception edge case is also a failure
of the converter and is modelled as the same error outcome). -/
def pylong_to_signum (value : Int) : Except PyErrKind Int :=
  if value < 0 ∨ value > NSIG then .error .overflowError else .ok value

/-- Model of the C expression `accu |= 1 << (signum - 1)`
(src/pdeathsignal.c:327).  The literal `1` has type `int` (32 bits), so by
C11 6.5.7p4 the shift is undefined behavior as soon as `signum - 1 ≥ 31`:
`1 << 31` overflows `int`, and a shift count of 32 or more reaches or
exceeds the width of the type.  Undefined behavior is modelled as an
explicit `none`; for `signum ≤ 31` the defined result is
`accu ||| 2 ^ (signum - 1)`. -/
def accumulate_signum_bit (accu : Nat) (signum : Nat) : Option Nat :=
  if signum ≤ 31 then some (accu ||| 2 ^ (signum - 1)) else none

/-- The element loop of `sigign_converter` (src/pdeathsignal.c:299-335):
fold `pylong_to_signum` and the bit accumulation over the sequence,
skipping elements equal to 0. -/
def sigignEncodeGo : List Int → Nat → Except PyErrKind Nat
  | [], accu => .ok accu
  | x :: rest, accu =>
    match pylong_to_signum x with
    | .error k => .error k
    | .ok v =>
      if 0 < v then
        match accumulate_signum_bit accu v.toNat with
        | some accu2 => sigignEncodeGo rest accu2
        | none => .error .undefinedBehavior
      else
        sigignEncodeGo rest accu

/-- Encoding of a whole integer sequence, starting from `accu = 0`. -/
def sigignEncodeList (xs : List Int) : Except PyErrKind Nat :=
  sigignEncodeGo xs 0

/-- Model of `sigign_converter` (src/pdeathsignal.c:265-336).  `NULL` or
`None` yields 0; a falsy value yields 0; a truthy value is first handed to
`PyLong_AsUnsignedLongLong` and, if that succeeds, the integer is used
directly as the mask; only a `TypeError` from that conversion is cleared
and the value iterated as a sequence of signal numbers. -/
def sigign_converter (obj : PyObj) : Except PyErrKind Nat :=
  match obj with
  | .pynone => .ok 0
  | _ =>
    if pyIsTrue obj then
      match pyAsUInt64 obj with
      | .ok v => .ok v
      | .error k =>
        if k = .typeError then
          match obj with
          | .pylist xs => sigignEncodeList xs
          | _ => .error .typeError
        else
          .error k
    else
      .ok 0

/-- Decoding of a signal bitmask back into the set of signal numbers it
represents: signal number `k + 1` for every set bit `k` (spec §4.1 and
§8, round-trip property). -/
def sigmaskDecode (m : Nat) : List Nat :=
  (List.range 64).filterMap (fun k => if m.testBit k then some (k + 1) else none)

example : sigign_converter (.pybool true) = .ok 1 := rfl
example : sigign_converter (.pybool false) = .ok 0 := rfl
example : sigign_converter (.pylist [9, 19]) = .ok 262400 := rfl
example : sigign_converter (.pylist [33]) = .error .undefinedBehavior := rfl
example : sigign_converter (.pyint 12345) = .ok 12345 := rfl

/-- The four `exec*` variants that the trampoline can choose at the image
replacement step (src/pdeathsignal.c:453-469). -/
inductive ExecVariant where
  | execvpe
  | execve
  | execvp
  | execv
deriving DecidableEq, Repr

/-- Name of the `exec*` variant as written into `data->fun` on failure. -/
def execVariantName : ExecVariant → String
  | .execvpe => "execvpe"
  | .execve => "execve"
  | .execvp => "execvp"
  | .execv => "execv"

/-- The shared descriptor `ExecTrampolineData` (src/pdeathsignal.c:384-394).
The C `flags` word is a bitset with bits `ETD_SEARCH_PATH`, `ETD_SETSID`
and `ETD_DOUBLEFORK`, which the code only ever tests and clears one named
bit at a time; it is modelled by the three Bool fields `search_path`,
`setsid_flag` and `doublefork`.  The `path`, `argv` and `envp` buffers are
the marshalling collaborator's output (spec §1 declares them out of
scope); only the NULL-ness of `envp`, which selects the exec variant, is
control-relevant and kept as `has_envp`.  The C field `fun` is named `fn`
here because `fun` is reserved in Lean. -/
structure ExecTrampolineData where
  has_envp : Bool
  search_path : Bool
  setsid_flag : Bool
  doublefork : Bool
  parent_signal : Int
  sigign : Nat
  childpid : Int
  fn : Option String
  error : Int
deriving DecidableEq, Repr

/-- Observable actions of one trampoline invocation, in the order they
can occur.  `failWrite` is the pair of stores `data->fun = fun;
data->error = errno;` at the `fail:` label, whose written values are read
off the final descriptor state. -/
inductive Action where
  | setsidCall
  | prctlSetPdeathsig (sig : Int)
  | cloneDoublefork
  | sigIgnore (signum : Nat)
  | recordPid (pid : Int)
  | execCall (v : ExecVariant)
  | failWrite
  | raiseSigkill
deriving DecidableEq, Repr

/-- Position of each action in the fixed step order of the trampoline
(spec §4.2 states 1-7). -/
def actIdx : Action → Nat
  | .setsidCall => 0
  | .prctlSetPdeathsig _ => 1
  | .cloneDoublefork => 2
  | .sigIgnore _ => 3
  | .recordPid _ => 4
  | .execCall _ => 5
  | .failWrite => 6
  | .raiseSigkill => 7

/-- Terminal fate of one trampoline invocation: either the process image
was replaced by a successful `exec*` call, or the invocation ended in
`raise(SIGKILL)`.  The C `return -1` after `raise(SIGKILL)` is
unreachable, since `SIGKILL` is unblockable and terminates the process
before `raise` returns. -/
inductive Outcome where
  | execed (v : ExecVariant)
  | killed
deriving DecidableEq, Repr

/-- Result of one trampoline invocation: the final shared descriptor, the
final `errno` value, the list of this invocation's own actions (a nested
double-fork invocation's actions are those of the recursive
`exec_trampoline` application; the descriptor and `errno` flow through
it), and the terminal fate. -/
structure TrampResult where
  data : ExecTrampolineData
  errno : Int
  trace : List Action
  outcome : Outcome
deriving Repr

/-- Outcome oracle for the OS calls the trampoline makes.  Success or
failure of each call, the `errno` a failing call sets, and the pid that
`getpid` reports in the grandchild are kernel decisions, not computed by
the embedded code. -/
structure Sys where
  setsid_ok : Bool
  setsid_errno : Int
  prctl_ok : Bool
  prctl_errno : Int
  clone2_ok : Bool
  clone2_errno : Int
  signal_ok : Nat → Bool
  signal_errno : Int
  exec_ok : Bool
  exec_errno : Int
  pid2 : Int

/-- The `fail:` label (src/pdeathsignal.c:471-475): store `fun` and the
current `errno` into the descriptor, then `raise(SIGKILL)`. -/
def failLabel (d : ExecTrampolineData) (e : Int) (f : Option String)
    (t : List Action) : TrampResult :=
  { data := { d with fn := f, error := e }, errno := e,
    trace := t ++ [Action.failWrite, Action.raiseSigkill], outcome := .killed }

/-- The signal-ignore `do ... while (sigign)` loop
(src/pdeathsignal.c:433-448) run on the local copy `m` of the mask with
current counter `sn`: shift off the low bit, increment `signum`, call
`signal(signum, SIG_IGN)` unless the bit is clear or `signum` is `SIGKILL`
or `SIGSTOP`, and stop at the first failing call or when the remaining
mask is zero.  Returns the signal numbers passed to `signal` (in order)
and whether the loop completed without a failing call. -/
def sigignLoop (sys : Sys) (m : Nat) (sn : Nat) : List Nat × Bool :=
  if m % 2 = 1 ∧ sn + 1 ≠ SIGKILL ∧ sn + 1 ≠ SIGSTOP then
    if sys.signal_ok (sn + 1) then
      if m / 2 = 0 then ([sn + 1], true)
      else
        let r := sigignLoop sys (m / 2) (sn + 1)
        ((sn + 1) :: r.1, r.2)
    else ([sn + 1], false)
  else
    if m / 2 = 0 then ([], true)
    else sigignLoop sys (m / 2) (sn + 1)
termination_by m
decreasing_by all_goals omega

/-- Exec variant selected at src/pdeathsignal.c:453-469 from the
NULL-ness of `envp` and the `ETD_SEARCH_PATH` flag (which is never
cleared). -/
def execVariantOf (d : ExecTrampolineData) : ExecVariant :=
  if d.has_envp then
    if d.search_path then .execvpe else .execve
  else
    if d.search_path then .execvp else .execv

/-- Steps 5-6 of the trampoline (src/pdeathsignal.c:451-469): record
`getpid()` into `data->childpid`, then call the selected exec variant; on
success the image is replaced and the descriptor frozen, on failure set
`fun` to the variant's name and fall through to `fail:`. -/
def tramp_tail56 (sys : Sys) (mypid : Int) (d : ExecTrampolineData) (e : Int)
    (t : List Action) : TrampResult :=
  let d1 := { d with childpid := mypid }
  let v := execVariantOf d1
  let t1 := t ++ [Action.recordPid mypid, Action.execCall v]
  if sys.exec_ok then
    { data := d1, errno := e, trace := t1, outcome := .execed v }
  else
    failLabel d1 sys.exec_errno (some (execVariantName v)) t1

/-- Step 4 of the trampoline (src/pdeathsignal.c:430-449): if the mask is
nonzero, clear `data->sigign` and run the signal-ignore loop on the local
copy; a failing `signal` call goes to `fail:` with `fun = "signal"`. -/
def tramp_tail (sys : Sys) (mypid : Int) (d : ExecTrampolineData) (e : Int)
    (t : List Action) : TrampResult :=
  if d.sigign ≠ 0 then
    let pr := sigignLoop sys d.sigign 0
    let d1 := { d with sigign := 0 }
    let t1 := t ++ pr.1.map Action.sigIgnore
    if pr.2 then
      tramp_tail56 sys mypid d1 e t1
    else
      failLabel d1 sys.signal_errno (some "signal") t1
  else
    tramp_tail56 sys mypid d e t

/-- Step 2 of the trampoline (src/pdeathsignal.c:410-418): read
`data->parent_signal` into a local, and if it is `>= 0` clear the field
and call `prctl(PR_SET_PDEATHSIG, parent_signal)`.  Returns `Sum.inl`
with the updated descriptor and accumulated trace, or `Sum.inr` with the
terminal result if the call failed. -/
def tramp_head2 (sys : Sys) (d : ExecTrampolineData) (e : Int)
    (t : List Action) : ExecTrampolineData × Int × List Action ⊕ TrampResult :=
  let ps := d.parent_signal
  if 0 ≤ ps then
    let d1 := { d with parent_signal := 0 }
    let t1 := t ++ [Action.prctlSetPdeathsig ps]
    if sys.prctl_ok then
      Sum.inl (d1, e, t1)
    else
      Sum.inr (failLabel d1 sys.prctl_errno (some "PR_SET_PDEATHSIG") t1)
  else
    Sum.inl (d, e, t)

/-- Step 1 of the trampoline (src/pdeathsignal.c:401-408): if the
`ETD_SETSID` flag is set, clear it and call `setsid()`; then step 2. -/
def tramp_head (sys : Sys) (d : ExecTrampolineData) (e : Int) :
    ExecTrampolineData × Int × List Action ⊕ TrampResult :=
  if d.setsid_flag then
    let d1 := { d with setsid_flag := false }
    if sys.setsid_ok then
      tramp_head2 sys d1 e [Action.setsidCall]
    else
      Sum.inr (failLabel d1 sys.setsid_errno (some "setsid") [Action.setsidCall])
  else
    tramp_head2 sys d e []

/-- Descriptor state after steps 1-2 succeeded (or were not requested):
the `ETD_SETSID` bit is cleared and `parent_signal` is zeroed when it was
`>= 0`. -/
def postHeadData (d : ExecTrampolineData) : ExecTrampolineData :=
  { d with setsid_flag := false,
           parent_signal := if 0 ≤ d.parent_signal then 0 else d.parent_signal }

/-- Actions performed by steps 1-2 when they succeed. -/
def headTrace (d : ExecTrampolineData) : List Action :=
  (if d.setsid_flag then [Action.setsidCall] else []) ++
    (if 0 ≤ d.parent_signal then [Action.prctlSetPdeathsig d.parent_signal] else [])

theorem tramp_head2_inl {sys : Sys} {d d2 : ExecTrampolineData} {e e2 : Int}
    {t t2 : List Action} (h : tramp_head2 sys d e t = Sum.inl (d2, e2, t2)) :
    d2.doublefork = d.doublefork ∧ d2.setsid_flag = d.setsid_flag := by
  simp only [tramp_head2] at h
  split at h
  · split at h
    · cases h; exact ⟨rfl, rfl⟩
    · exact Sum.noConfusion h
  · cases h; exact ⟨rfl, rfl⟩

theorem tramp_head_inl {sys : Sys} {d d2 : ExecTrampolineData} {e e2 : Int}
    {t2 : List Action} (h : tramp_head sys d e = Sum.inl (d2, e2, t2)) :
    d2.doublefork = d.doublefork ∧ d2.setsid_flag = false := by
  simp only [tramp_head] at h
  split at h
  · split at h
    · have h2 := tramp_head2_inl h
      exact ⟨h2.1, h2.2⟩
    · exact Sum.noConfusion h
  · rename_i hflag
    have h2 := tramp_head2_inl h
    refine ⟨h2.1, ?_⟩
    rw [h2.2]
    simpa using hflag

/-- The trampoline `exec_trampoline` (src/pdeathsignal.c:397-476), one
invocation running in the cloned execution context with pid `mypid`,
shared descriptor `d` and current `errno` value `e`.  The double-fork
step clears the `ETD_DOUBLEFORK` flag, recursively runs the same
trampoline in a second `CLONE_VFORK | CLONE_VM` context (which completes
before `clone` returns to the middle context), and then the middle
context falls to `fail:` with its local `fun` still `NULL` when the clone
succeeded, or `"clone(doublefork)"` when it failed. -/
def exec_trampoline (sys : Sys) (mypid : Int) (d : ExecTrampolineData)
    (e : Int) : TrampResult :=
  match h : tramp_head sys d e with
  | .inr r => r
  | .inl (d2, e2, t) =>
    if hdf : d2.doublefork then
      let d3 := { d2 with doublefork := false }
      if sys.clone2_ok then
        let rg := exec_trampoline sys sys.pid2 d3 e2
        { data := { rg.data with fn := none, error := rg.errno },
          errno := rg.errno,
          trace := t ++ [Action.cloneDoublefork, Action.failWrite, Action.raiseSigkill],
          outcome := .killed }
      else
        failLabel d3 sys.clone2_errno (some "clone(doublefork)")
          (t ++ [Action.cloneDoublefork])
    else
      tramp_tail sys mypid d2 e2 t
termination_by (if d.doublefork then 1 else 0)
decreasing_by
  have hdd := (tramp_head_inl h).1
  rw [hdd] at hdf
  simp [hdf]

/-- Oracle for the caller-side OS calls of `cloneandexecve_impl`: the
outcome of the initial `clone` call (and the pid it returns), and the
results of the up-to-two non-blocking `waitpid` polls. -/
structure CallerSys where
  clone_ok : Bool
  clone_errno : Int
  child_pid : Int
  wait1_reaped : Bool
  wait2_reaped : Bool

/-- Python exception classes raised by `cloneandexecve_impl`. -/
inductive PyExc where
  | exception
  | oserror
deriving DecidableEq, Repr

/-- Caller-visible result of `cloneandexecve`: a raised exception (class,
the failed step named in the message if any, and the errno embedded in
the message), a pid, or `None`. -/
inductive SpawnResult where
  | raised (kind : PyExc) (step : Option String) (code : Int)
  | pid (p : Int)
  | pynone
deriving DecidableEq, Repr

/-- The `ExecTrampolineData` initializer at src/pdeathsignal.c:532-545:
flags from the three keyword booleans, `parent_signal` from the `signal`
keyword (default `-1` via `signal_m1_convert`), the encoded `sigign`
mask, and `childpid = -1`, `fun = NULL`, `error = -1`. -/
def mkTrampolineData (has_envp search_path setsid doublefork : Bool)
    (signal : Int) (sigign : Nat) : ExecTrampolineData :=
  { has_envp := has_envp, search_path := search_path, setsid_flag := setsid,
    doublefork := doublefork, parent_signal := signal, sigign := sigign,
    childpid := -1, fn := none, error := -1 }

/-- The spawn portion of `cloneandexecve_impl` (src/pdeathsignal.c:550-579),
after argument parsing: if the `clone` call itself fails, raise the
generic `Exception` with the errno in the message and touch nothing else;
otherwise (`CLONE_VFORK` makes `clone` return only after the trampoline
has replaced its image or died) poll `waitpid(childprocess, WNOHANG)`,
poll it a second time when the descriptor's `childpid` is a valid pid
different from `childprocess`, then raise `OSError` naming
`trampoline_data.fun` and `trampoline_data.error` if `fun` was set, and
otherwise return `trampoline_data.childpid` when the poll reaped nothing
or `None` when it did. -/
def cloneandexecve_impl (cs : CallerSys) (sys : Sys) (d0 : ExecTrampolineData)
    (e0 : Int) : SpawnResult :=
  if cs.clone_ok then
    let r := exec_trampoline sys cs.child_pid d0 e0
    let waitpid_result :=
      if 0 ≤ r.data.childpid ∧ r.data.childpid ≠ cs.child_pid then
        cs.wait2_reaped
      else
        cs.wait1_reaped
    match r.data.fn with
    | some f => SpawnResult.raised .oserror (some f) r.data.error
    | none =>
      if waitpid_result = false then SpawnResult.pid r.data.childpid
      else SpawnResult.pynone
  else
    SpawnResult.raised .exception none cs.clone_errno

/-- Oracle in which every OS call succeeds. -/
def sysAllOk : Sys :=
  { setsid_ok := true, setsid_errno := 0, prctl_ok := true, prctl_errno := 0,
    clone2_ok := true, clone2_errno := 0, signal_ok := fun _ => true,
    signal_errno := 0, exec_ok := true, exec_errno := 0, pid2 := 77 }

theorem tramp_head2_ok {sys : Sys} {d : ExecTrampolineData} {e : Int}
    {t : List Action} (h2 : d.parent_signal < 0 ∨ sys.prctl_ok = true) :
    tramp_head2 sys d e t = Sum.inl
      ({ d with parent_signal := if 0 ≤ d.parent_signal then 0 else d.parent_signal },
        e,
        t ++ (if 0 ≤ d.parent_signal then [Action.prctlSetPdeathsig d.parent_signal]
              else [])) := by
  unfold tramp_head2
  by_cases hps : (0 : Int) ≤ d.parent_signal
  · have hp : sys.prctl_ok = true := by
      rcases h2 with h2 | h2
      · omega
      · exact h2
    simp [hps, hp]
  · simp [hps]

theorem tramp_head_ok {sys : Sys} {d : ExecTrampolineData} {e : Int}
    (h1 : d.setsid_flag = false ∨ sys.setsid_ok = true)
    (h2 : d.parent_signal < 0 ∨ sys.prctl_ok = true) :
    tramp_head sys d e = Sum.inl (postHeadData d, e, headTrace d) := by
  unfold tramp_head
  by_cases hs : d.setsid_flag
  · have hok : sys.setsid_ok = true := by
      rcases h1 with h1 | h1
      · rw [hs] at h1; cases h1
      · exact h1
    rw [if_pos hs, if_pos hok,
      tramp_head2_ok (d := { d with setsid_flag := false }) h2]
    simp [postHeadData, headTrace, hs]
  · rw [if_neg hs, tramp_head2_ok h2]
    simp only [Bool.not_eq_true] at hs
    simp [postHeadData, headTrace, hs]

theorem tramp_head_fail_setsid {sys : Sys} {d : ExecTrampolineData} {e : Int}
    (hs : d.setsid_flag = true) (hok : sys.setsid_ok = false) :
    tramp_head sys d e = Sum.inr (failLabel { d with setsid_flag := false }
      sys.setsid_errno (some "setsid") [Action.setsidCall]) := by
  unfold tramp_head
  simp [hs, hok]

theorem tramp_head_fail_prctl {sys : Sys} {d : ExecTrampolineData} {e : Int}
    (h1 : d.setsid_flag = false ∨ sys.setsid_ok = true)
    (hps : 0 ≤ d.parent_signal) (hok : sys.prctl_ok = false) :
    tramp_head sys d e = Sum.inr (failLabel (postHeadData d) sys.prctl_errno
      (some "PR_SET_PDEATHSIG") (headTrace d)) := by
  unfold tramp_head tramp_head2
  by_cases hs : d.setsid_flag
  · have hsok : sys.setsid_ok = true := by
      rcases h1 with h1 | h1
      · rw [hs] at h1; cases h1
      · exact h1
    simp [hs, hsok, hps, hok, postHeadData, headTrace]
  · simp only [Bool.not_eq_true] at hs
    simp [hs, hps, hok, postHeadData, headTrace]

theorem exec_trampoline_inr {sys : Sys} {p : Int} {d : ExecTrampolineData}
    {e : Int} {r : TrampResult} (h : tramp_head sys d e = Sum.inr r) :
    exec_trampoline sys p d e = r := by
  rw [exec_trampoline, h]

theorem exec_trampoline_nodf {sys : Sys} {p : Int} {d : ExecTrampolineData}
    {e : Int} (h1 : d.setsid_flag = false ∨ sys.setsid_ok = true)
    (h2 : d.parent_signal < 0 ∨ sys.prctl_ok = true)
    (hdf : d.doublefork = false) :
    exec_trampoline sys p d e = tramp_tail sys p (postHeadData d) e (headTrace d) := by
  rw [exec_trampoline, tramp_head_ok h1 h2]
  have hd2 : (postHeadData d).doublefork = false := by
    simp [postHeadData, hdf]
  simp [hd2]

theorem exec_trampoline_df_fail {sys : Sys} {p : Int} {d : ExecTrampolineData}
    {e : Int} (h1 : d.setsid_flag = false ∨ sys.setsid_ok = true)
    (h2 : d.parent_signal < 0 ∨ sys.prctl_ok = true)
    (hdf : d.doublefork = true) (hc : sys.clone2_ok = false) :
    exec_trampoline sys p d e =
      failLabel { postHeadData d with doublefork := false } sys.clone2_errno
        (some "clone(doublefork)") (headTrace d ++ [Action.cloneDoublefork]) := by
  rw [exec_trampoline, tramp_head_ok h1 h2]
  have hd2 : (postHeadData d).doublefork = true := by
    simp [postHeadData, hdf]
  simp [hd2, hc]

theorem exec_trampoline_df_ok {sys : Sys} {p : Int} {d : ExecTrampolineData}
    {e : Int} (h1 : d.setsid_flag = false ∨ sys.setsid_ok = true)
    (h2 : d.parent_signal < 0 ∨ sys.prctl_ok = true)
    (hdf : d.doublefork = true) (hc : sys.clone2_ok = true) :
    exec_trampoline sys p d e =
      { data := { (exec_trampoline sys sys.pid2
            { postHeadData d with doublefork := false } e).data with
          fn := none,
          error := (exec_trampoline sys sys.pid2
            { postHeadData d with doublefork := false } e).errno },
        errno := (exec_trampoline sys sys.pid2
          { postHeadData d with doublefork := false } e).errno,
        trace := headTrace d ++
          [Action.cloneDoublefork, Action.failWrite, Action.raiseSigkill],
        outcome := .killed } := by
  rw [exec_trampoline, tramp_head_ok h1 h2]
  have hd2 : (postHeadData d).doublefork = true := by
    simp [postHeadData, hdf]
  simp [hd2, hc]

theorem sigignLoop_mem {sys : Sys} {m sn n : Nat}
    (h : n ∈ (sigignLoop sys m sn).1) :
    sn < n ∧ Nat.testBit m (n - sn - 1) = true ∧ n ≠ SIGKILL ∧ n ≠ SIGSTOP := by
  induction m using Nat.strong_induction_on generalizing sn with
  | _ m ih =>
    rw [sigignLoop] at h
    split at h
    · rename_i hguard
      obtain ⟨hbit, hk, hs⟩ := hguard
      split at h
      · split at h
        · simp at h
          subst h
          refine ⟨by omega, ?_, hk, hs⟩
          simpa [Nat.testBit_zero] using hbit
        · simp at h
          rcases h with h | h
          · subst h
            refine ⟨by omega, ?_, hk, hs⟩
            simpa [Nat.testBit_zero] using hbit
          · rename_i hm2 _
            have hrec := ih (m / 2) (by omega) h
            refine ⟨by omega, ?_, hrec.2.2.1, hrec.2.2.2⟩
            have hn : n - sn - 1 = (n - (sn + 1) - 1) + 1 := by omega
            rw [hn, Nat.testBit_succ]
            exact hrec.2.1
      · simp at h
        subst h
        refine ⟨by omega, ?_, hk, hs⟩
        simpa [Nat.testBit_zero] using hbit
    · split at h
      · simp at h
      · rename_i hm2
        have hrec := ih (m / 2) (by omega) h
        refine ⟨by omega, ?_, hrec.2.2.1, hrec.2.2.2⟩
        have hn : n - sn - 1 = (n - (sn + 1) - 1) + 1 := by omega
        rw [hn, Nat.testBit_succ]
        exact hrec.2.1

theorem sigignLoop_mem_of {sys : Sys} (hok : ∀ s, sys.signal_ok s = true)
    {m sn n : Nat} (hlt : sn < n) (hbit : Nat.testBit m (n - sn - 1) = true)
    (hk : n ≠ SIGKILL) (hs : n ≠ SIGSTOP) : n ∈ (sigignLoop sys m sn).1 := by
  induction m using Nat.strong_induction_on generalizing sn with
  | _ m ih =>
    have hm0 : m ≠ 0 := by
      intro h0
      rw [h0, Nat.zero_testBit] at hbit
      cases hbit
    rw [sigignLoop]
    by_cases hfirst : n = sn + 1
    · subst hfirst
      have hb0 : m % 2 = 1 := by
        have := hbit
        simpa [Nat.testBit_zero] using this
      rw [if_pos ⟨hb0, hk, hs⟩, hok]
      simp only [if_true]
      split
      · simp
      · simp
    · have hkk : n - sn - 1 = (n - (sn + 1) - 1) + 1 := by omega
      rw [hkk, Nat.testBit_succ] at hbit
      have hm2 : m / 2 ≠ 0 := by
        intro h0
        rw [h0, Nat.zero_testBit] at hbit
        cases hbit
      have hrec := ih (m / 2) (by omega) (by omega) hbit
      split
      · rw [hok]
        simp only [if_true]
        simp [hm2, hrec]
      · exact hrec

theorem sigignLoop_ok {sys : Sys} (hok : ∀ s, sys.signal_ok s = true)
    (m sn : Nat) : (sigignLoop sys m sn).2 = true := by
  induction m using Nat.strong_induction_on generalizing sn with
  | _ m ih =>
    rw [sigignLoop]
    split
    · rw [hok]
      simp only [if_true]
      split
      · rfl
      · simpa using ih (m / 2) (by omega) (sn + 1)
    · split
      · rfl
      · exact ih (m / 2) (by omega) (sn + 1)

/-- Closed form of the actions contributed by steps 4-6 of an invocation
that reaches them with descriptor `d`. -/
def tailTrace (sys : Sys) (p : Int) (d : ExecTrampolineData) : List Action :=
  let pr := if d.sigign ≠ 0 then sigignLoop sys d.sigign 0 else ([], true)
  pr.1.map Action.sigIgnore ++
    (if pr.2 then
      [Action.recordPid p, Action.execCall (execVariantOf d)] ++
        (if sys.exec_ok then [] else [Action.failWrite, Action.raiseSigkill])
    else [Action.failWrite, Action.raiseSigkill])

theorem tramp_tail_trace (sys : Sys) (p : Int) (d : ExecTrampolineData)
    (e : Int) (t : List Action) :
    (tramp_tail sys p d e t).trace = t ++ tailTrace sys p d := by
  have hcases : (sigignLoop sys d.sigign 0).2 = true ∨
      (sigignLoop sys d.sigign 0).2 = false := by
    cases (sigignLoop sys d.sigign 0).2 <;> simp
  unfold tramp_tail tramp_tail56 tailTrace failLabel execVariantOf
  rcases hcases with hok | hok <;> split_ifs <;> simp_all

/-- Closed form of one invocation's own action trace.  The branch
structure mirrors the trampoline: a failing `setsid`, a failing `prctl`,
the double-fork branch (whose own trace is the same whether the inner
clone succeeds or fails), and the straight path through steps 4-6. -/
def ownTrace (sys : Sys) (p : Int) (d : ExecTrampolineData) : List Action :=
  if d.setsid_flag = true ∧ sys.setsid_ok = false then
    [Action.setsidCall, Action.failWrite, Action.raiseSigkill]
  else if 0 ≤ d.parent_signal ∧ sys.prctl_ok = false then
    headTrace d ++ [Action.failWrite, Action.raiseSigkill]
  else if d.doublefork = true then
    headTrace d ++ [Action.cloneDoublefork, Action.failWrite, Action.raiseSigkill]
  else
    headTrace d ++ tailTrace sys p (postHeadData d)

theorem exec_trampoline_trace (sys : Sys) (p : Int) (d : ExecTrampolineData)
    (e : Int) : (exec_trampoline sys p d e).trace = ownTrace sys p d := by
  unfold ownTrace
  by_cases c1 : d.setsid_flag = true ∧ sys.setsid_ok = false
  · rw [exec_trampoline_inr (tramp_head_fail_setsid c1.1 c1.2), if_pos c1]
    simp [failLabel]
  · rw [if_neg c1]
    have h1 : d.setsid_flag = false ∨ sys.setsid_ok = true := by
      cases hfs : d.setsid_flag <;> cases hss : sys.setsid_ok <;> simp_all
    by_cases c2 : 0 ≤ d.parent_signal ∧ sys.prctl_ok = false
    · rw [exec_trampoline_inr (tramp_head_fail_prctl h1 c2.1 c2.2), if_pos c2]
      simp [failLabel]
    · rw [if_neg c2]
      have h2 : d.parent_signal < 0 ∨ sys.prctl_ok = true := by
        by_cases hps : 0 ≤ d.parent_signal
        · right
          cases hp : sys.prctl_ok
          · exact absurd ⟨hps, hp⟩ c2
          · rfl
        · left; omega
      by_cases cdf : d.doublefork = true
      · rw [if_pos cdf]
        by_cases hc : sys.clone2_ok = true
        · rw [exec_trampoline_df_ok h1 h2 cdf hc]
        · rw [exec_trampoline_df_fail h1 h2 cdf (by simpa using hc)]
          simp [failLabel]
      · rw [if_neg cdf, exec_trampoline_nodf h1 h2 (by simpa using cdf)]
        exact tramp_tail_trace sys p (postHeadData d) e (headTrace d)

/-- Order relation on actions: earlier-or-equal step position. -/
def actLE (a b : Action) : Prop := actIdx a ≤ actIdx b

theorem headTrace_pairwise (d : ExecTrampolineData) :
    List.Pairwise actLE (headTrace d) := by
  unfold headTrace
  split_ifs <;> simp [List.pairwise_cons, actLE, actIdx]

theorem headTrace_mem {d : ExecTrampolineData} {a : Action}
    (h : a ∈ headTrace d) :
    a = Action.setsidCall ∨ a = Action.prctlSetPdeathsig d.parent_signal := by
  unfold headTrace at h
  rcases List.mem_append.mp h with h | h <;> split_ifs at h <;> simp_all

theorem headTrace_bound {d : ExecTrampolineData} {a : Action}
    (h : a ∈ headTrace d) : actIdx a ≤ 1 := by
  rcases headTrace_mem h with rfl | rfl <;> simp [actIdx]

theorem headTrace_setsid {d : ExecTrampolineData}
    (h : Action.setsidCall ∈ headTrace d) : d.setsid_flag = true := by
  unfold headTrace at h
  rcases List.mem_append.mp h with h | h <;> split_ifs at h <;> simp_all

theorem headTrace_prctl {d : ExecTrampolineData} {s : Int}
    (h : Action.prctlSetPdeathsig s ∈ headTrace d) :
    s = d.parent_signal ∧ 0 ≤ d.parent_signal := by
  unfold headTrace at h
  rcases List.mem_append.mp h with h | h <;> split_ifs at h <;> simp_all

theorem pairwise_map_sigIgnore (l : List Nat) :
    List.Pairwise actLE (l.map Action.sigIgnore) :=
  List.pairwise_map.mpr
    (List.pairwise_of_forall (fun _ _ => by simp [actLE, actIdx]))

theorem mem_map_sigIgnore {l : List Nat} {a : Action}
    (h : a ∈ l.map Action.sigIgnore) : actIdx a = 3 := by
  rcases List.mem_map.mp h with ⟨n, -, rfl⟩
  rfl

theorem tailTrace_pairwise (sys : Sys) (p : Int) (d : ExecTrampolineData) :
    List.Pairwise actLE (tailTrace sys p d) := by
  simp only [tailTrace]
  apply List.pairwise_append.mpr
  refine ⟨pairwise_map_sigIgnore _, ?_, ?_⟩
  · split_ifs <;> simp [List.pairwise_cons, actLE, actIdx]
  · intro a ha b hb
    have h3 := mem_map_sigIgnore ha
    unfold actLE
    rw [h3]
    split_ifs at hb <;> simp at hb <;>
      first
        | (rcases hb with rfl | rfl <;> simp [actIdx])
        | (rcases hb with rfl | rfl | rfl | rfl <;> simp [actIdx])

theorem tailTrace_bound {sys : Sys} {p : Int} {d : ExecTrampolineData}
    {a : Action} (h : a ∈ tailTrace sys p d) : 3 ≤ actIdx a := by
  simp only [tailTrace] at h
  rcases List.mem_append.mp h with h | h
  · have := mem_map_sigIgnore h
    omega
  · split_ifs at h <;> simp at h <;>
      first
        | (rcases h with rfl | rfl <;> simp [actIdx])
        | (rcases h with rfl | rfl | rfl | rfl <;> simp [actIdx])

theorem tailTrace_sigIgnore {sys : Sys} {p : Int} {d : ExecTrampolineData}
    {n : Nat} (h : Action.sigIgnore n ∈ tailTrace sys p d) :
    d.sigign ≠ 0 ∧ n ∈ (sigignLoop sys d.sigign 0).1 := by
  simp only [tailTrace] at h
  rcases List.mem_append.mp h with h | h
  · rcases List.mem_map.mp h with ⟨m, hm, hma⟩
    have hmn : m = n := by
      cases hma
      rfl
    subst hmn
    split_ifs at hm
    · exact ⟨by assumption, hm⟩
    · simp at hm
  · split_ifs at h <;> simp [Action.sigIgnore] at h

theorem ownTrace_pairwise (sys : Sys) (p : Int) (d : ExecTrampolineData) :
    List.Pairwise actLE (ownTrace sys p d) := by
  unfold ownTrace
  split_ifs
  · simp [List.pairwise_cons, actLE, actIdx]
  · apply List.pairwise_append.mpr
    refine ⟨headTrace_pairwise d, by simp [List.pairwise_cons, actLE, actIdx], ?_⟩
    intro a ha b hb
    have h1 := headTrace_bound ha
    unfold actLE
    simp at hb
    rcases hb with rfl | rfl <;> exact le_trans h1 (by simp [actIdx])
  · apply List.pairwise_append.mpr
    refine ⟨headTrace_pairwise d, by simp [List.pairwise_cons, actLE, actIdx], ?_⟩
    intro a ha b hb
    have h1 := headTrace_bound ha
    unfold actLE
    simp at hb
    rcases hb with rfl | rfl | rfl <;> exact le_trans h1 (by simp [actIdx])
  · apply List.pairwise_append.mpr
    refine ⟨headTrace_pairwise d, tailTrace_pairwise sys p (postHeadData d), ?_⟩
    intro a ha b hb
    have h1 := headTrace_bound ha
    have h2 := tailTrace_bound hb
    unfold actLE
    omega

theorem ownTrace_setsid {sys : Sys} {p : Int} {d : ExecTrampolineData}
    (h : Action.setsidCall ∈ ownTrace sys p d) : d.setsid_flag = true := by
  unfold ownTrace at h
  split_ifs at h with c1 c2 c3
  · exact c1.1
  · rcases List.mem_append.mp h with h | h
    · exact headTrace_setsid h
    · simp at h
  · rcases List.mem_append.mp h with h | h
    · exact headTrace_setsid h
    · simp at h
  · rcases List.mem_append.mp h with h | h
    · exact headTrace_setsid h
    · have := tailTrace_bound h
      simp [actIdx] at this

theorem ownTrace_clone {sys : Sys} {p : Int} {d : ExecTrampolineData}
    (h : Action.cloneDoublefork ∈ ownTrace sys p d) : d.doublefork = true := by
  unfold ownTrace at h
  split_ifs at h with c1 c2 c3
  · simp at h
  · rcases List.mem_append.mp h with h | h
    · rcases headTrace_mem h with h | h <;> cases h
    · simp at h
  · exact c3
  · rcases List.mem_append.mp h with h | h
    · rcases headTrace_mem h with h | h <;> cases h
    · have := tailTrace_bound h
      simp [actIdx] at this

theorem ownTrace_prctl {sys : Sys} {p : Int} {d : ExecTrampolineData} {s : Int}
    (h : Action.prctlSetPdeathsig s ∈ ownTrace sys p d) :
    s = d.parent_signal ∧ 0 ≤ d.parent_signal := by
  unfold ownTrace at h
  split_ifs at h with c1 c2 c3
  · simp at h
  · rcases List.mem_append.mp h with h | h
    · exact headTrace_prctl h
    · simp at h
  · rcases List.mem_append.mp h with h | h
    · exact headTrace_prctl h
    · simp at h
  · rcases List.mem_append.mp h with h | h
    · exact headTrace_prctl h
    · have := tailTrace_bound h
      simp [actIdx] at this

theorem ownTrace_sigIgnore {sys : Sys} {p : Int} {d : ExecTrampolineData}
    {n : Nat} (h : Action.sigIgnore n ∈ ownTrace sys p d) :
    d.sigign ≠ 0 ∧ n ∈ (sigignLoop sys d.sigign 0).1 := by
  unfold ownTrace at h
  split_ifs at h with c1 c2 c3
  · simp at h
  · rcases List.mem_append.mp h with h | h
    · rcases headTrace_mem h with h | h <;> cases h
    · simp at h
  · rcases List.mem_append.mp h with h | h
    · rcases headTrace_mem h with h | h <;> cases h
    · simp at h
  · rcases List.mem_append.mp h with h | h
    · rcases headTrace_mem h with h | h <;> cases h
    · have := tailTrace_sigIgnore h
      simpa [postHeadData] using this

/-- Descriptor as initialized for a plain spawn with all defaults: no
flags, no parent-death signal (sentinel -1), empty ignore mask. -/
def dPlain : ExecTrampolineData := mkTrampolineData false false false false (-1) 0

/-- Oracle in which every call succeeds except the exec variants, which
fail with errno 2 (ENOENT), as for a nonexistent program path. -/
def sysExecFail : Sys := { sysAllOk with exec_ok := false, exec_errno := 2 }

/-- Caller oracle for a successful clone returning pid 42, with both
non-blocking waitpid polls reporting the child already reaped. -/
def csOk : CallerSys :=
  { clone_ok := true, clone_errno := 0, child_pid := 42,
    wait1_reaped := true, wait2_reaped := true }

/-- Caller oracle for a clone call that fails with errno 11 (EAGAIN). -/
def csCloneFail : CallerSys :=
  { clone_ok := false, clone_errno := 11, child_pid := -1,
    wait1_reaped := false, wait2_reaped := false }

/-- C10: for the sigign argument, any truthy input that successfully
converts to an unsigned 64-bit integer (a plain int, or True which
converts to 1) is used directly and verbatim as the signal bitmask,
bypassing per-element range validation and per-signal encoding; only
truthy inputs whose integer conversion fails with a TypeError (such as a
nonempty sequence) are iterated as a sequence of signal numbers. -/
theorem C10_sigign_uint64_bypass :
    (∀ n : Int, 0 < n → n < 2 ^ 64 → sigign_converter (.pyint n) = .ok n.toNat) ∧
    sigign_converter (.pybool true) = .ok 1 ∧
    (∀ xs : List Int, xs ≠ [] → sigign_converter (.pylist xs) = sigignEncodeList xs) := by
  refine ⟨?_, rfl, ?_⟩
  · intro n h0 h64
    have hne : (n != 0) = true := by
      simp only [bne_iff_ne, ne_eq]
      omega
    have hpow : (2 : Int) ^ 64 = 18446744073709551616 := by norm_num
    have hrange : ¬(n < 0 ∨ (2 : Int) ^ 64 ≤ n) := by
      rw [hpow]
      rw [hpow] at h64
      omega
    simp only [sigign_converter, pyIsTrue, hne, if_true, pyAsUInt64, if_neg hrange]
  · intro xs hxs
    have hne : xs.isEmpty = false := by
      cases xs
      · cases hxs rfl
      · rfl
    simp [sigign_converter, pyIsTrue, pyAsUInt64, hne]

/-- C10 witness: the plain int 12345 (far above any valid signal number)
is used verbatim as the mask, and a nonempty list is iterated. -/
theorem C10_sigign_uint64_bypass_witness :
    (0 : Int) < 12345 ∧ (12345 : Int) < 2 ^ 64 ∧
    sigign_converter (.pyint 12345) = .ok 12345 ∧
    sigign_converter (.pylist [9]) = sigignEncodeList [9] :=
  ⟨by decide, by decide,
   C10_sigign_uint64_bypass.1 12345 (by decide) (by decide),
   C10_sigign_uint64_bypass.2.2 [9] (by decide)⟩

/-- C6 counterexample: the claim says a bare True produces the full
bitmask with every signal bit set.  In the code, True is an int subclass,
`PyLong_AsUnsignedLongLong(True)` succeeds with 1, and that value is used
directly: the encoding of True is the mask 1, not the full mask. -/
theorem C6_true_is_not_full_mask :
    sigign_converter (.pybool true) = .ok 1 ∧ (1 : Nat) ≠ 2 ^ 64 - 1 :=
  ⟨rfl, by decide⟩

/-- C6 (amended): a bare True, being truthy and converting to the
unsigned integer 1, encodes to the mask 1 (only the bit of signal 1);
False or an absent argument encodes to the empty mask 0. -/
theorem C6_bool_shorthand :
    sigign_converter (.pybool true) = .ok 1 ∧
    sigign_converter (.pybool false) = .ok 0 ∧
    sigign_converter .pynone = .ok 0 :=
  ⟨rfl, rfl, rfl⟩

/-- C7: the claim says encoding sets bit `n - 1` for every valid signal
number `n` up to the platform maximum, including numbers greater than 32.
The code's accumulator is a `uint64_t`, but the C expression is
`accu |= 1 << (signum - 1)` with a 32-bit `int` literal, so for a signal
number of 32 or more the shift is undefined behavior (C11 6.5.7p4)
instead of setting bit `signum - 1`.  Signal number 33 passes the range
check (`0 <= 33 <= _NSIG`) yet its encoding reaches the undefined shift
`1 << 32`. -/
theorem C7_encode_33_hits_undefined_shift :
    pylong_to_signum 33 = .ok 33 ∧
    sigign_converter (.pylist [33]) = .error .undefinedBehavior ∧
    accumulate_signum_bit 0 33 = none :=
  ⟨rfl, rfl, rfl⟩

/-- C8 counterexample: the claim says a failing clone call is reported as
an OSError.  The code calls `PyErr_Format(PyExc_Exception, "clone failed
with errno=%d", code)`: the raised class is the generic `Exception`, not
`OSError`. -/
theorem C8_clone_failure_is_not_oserror :
    cloneandexecve_impl csCloneFail sysAllOk dPlain 0 =
      SpawnResult.raised PyExc.exception none 11 ∧
    PyExc.exception ≠ PyExc.oserror :=
  ⟨rfl, by decide⟩

/-- C8 (amended): if the clone call itself fails, the spawn function
reports this immediately as a generic `Exception` whose message carries
the platform error code, without consulting the shared descriptor (the
result is independent of the descriptor and of every trampoline
outcome). -/
theorem C8_clone_failure_immediate :
    ∀ (cs : CallerSys) (sys sys2 : Sys) (d d2 : ExecTrampolineData) (e e2 : Int),
      cs.clone_ok = false →
      cloneandexecve_impl cs sys d e =
        SpawnResult.raised PyExc.exception none cs.clone_errno ∧
      cloneandexecve_impl cs sys d e = cloneandexecve_impl cs sys2 d2 e2 := by
  intro cs sys sys2 d d2 e e2 h
  unfold cloneandexecve_impl
  rw [h]
  simp

/-- C8 witness: the concrete failing-clone oracle. -/
theorem C8_clone_failure_immediate_witness :
    csCloneFail.clone_ok = false ∧
    cloneandexecve_impl csCloneFail sysExecFail dPlain 0 =
      SpawnResult.raised PyExc.exception none 11 :=
  ⟨rfl,
   (C8_clone_failure_immediate csCloneFail sysExecFail sysAllOk dPlain dPlain 0 0 rfl).1⟩

/-- C3: after a successful clone the caller inspects the descriptor: if
`fun` is set it raises OSError naming the failed step and the OS error
code; otherwise it returns `childpid` when the non-blocking wait has not
reaped the created process, and None when it has. -/
theorem C3_caller_reads_descriptor :
    (∀ (cs : CallerSys) (sys : Sys) (d : ExecTrampolineData) (e : Int) (f : String),
      cs.clone_ok = true →
      (exec_trampoline sys cs.child_pid d e).data.fn = some f →
      cloneandexecve_impl cs sys d e = SpawnResult.raised .oserror (some f)
        (exec_trampoline sys cs.child_pid d e).data.error) ∧
    (∀ (cs : CallerSys) (sys : Sys) (d : ExecTrampolineData) (e : Int),
      cs.clone_ok = true →
      (exec_trampoline sys cs.child_pid d e).data.fn = none →
      cloneandexecve_impl cs sys d e =
        (if (if 0 ≤ (exec_trampoline sys cs.child_pid d e).data.childpid ∧
              (exec_trampoline sys cs.child_pid d e).data.childpid ≠ cs.child_pid
            then cs.wait2_reaped else cs.wait1_reaped) = false
         then SpawnResult.pid (exec_trampoline sys cs.child_pid d e).data.childpid
         else SpawnResult.pynone)) := by
  constructor
  · intro cs sys d e f hc hf
    unfold cloneandexecve_impl
    rw [hc]
    simp [hf]
  · intro cs sys d e hc hf
    unfold cloneandexecve_impl
    rw [hc]
    simp [hf]

/-- C3 witness: spawning a nonexistent path (exec fails with ENOENT,
errno 2) raises OSError naming the `execv` step and error code 2. -/
theorem C3_caller_reads_descriptor_witness :
    csOk.clone_ok = true ∧
    (exec_trampoline sysExecFail csOk.child_pid dPlain 0).data.fn = some "execv" ∧
    cloneandexecve_impl csOk sysExecFail dPlain 0 =
      SpawnResult.raised .oserror (some "execv") 2 := by
  have hfn : (exec_trampoline sysExecFail csOk.child_pid dPlain 0).data.fn
      = some "execv" := by
    rw [exec_trampoline_nodf (Or.inl rfl) (Or.inl (by decide)) rfl]
    simp [tramp_tail, tramp_tail56, postHeadData, dPlain, mkTrampolineData,
      sysExecFail, sysAllOk, failLabel, execVariantOf, execVariantName]
  have herr : (exec_trampoline sysExecFail csOk.child_pid dPlain 0).data.error = 2 := by
    rw [exec_trampoline_nodf (Or.inl rfl) (Or.inl (by decide)) rfl]
    simp [tramp_tail, tramp_tail56, postHeadData, dPlain, mkTrampolineData,
      sysExecFail, sysAllOk, failLabel, execVariantOf]
  refine ⟨rfl, hfn, ?_⟩
  rw [C3_caller_reads_descriptor.1 csOk sysExecFail dPlain 0 "execv" rfl hfn, herr]

/-- Oracle in which `setsid` fails with errno 13 (EACCES) and all other
calls succeed. -/
def sysSetsidFail : Sys := { sysAllOk with setsid_ok := false, setsid_errno := 13 }

/-- Descriptor requesting only the new-session flag. -/
def dSetsid : ExecTrampolineData := mkTrampolineData false false true false (-1) 0

/-- Descriptor requesting a new session, a double fork and parent-death
signal 5. -/
def dDouble : ExecTrampolineData := mkTrampolineData false false true true 5 0

/-- Descriptor in the state a first trampoline pass leaves behind after
arming a parent-death signal: `parent_signal` cleared to 0, flags
cleared. -/
def dReentered : ExecTrampolineData := mkTrampolineData false false false false 0 0

theorem tramp_tail56_shape (sys : Sys) (p : Int) (d : ExecTrampolineData)
    (e : Int) (t : List Action) :
    (∃ v, (tramp_tail56 sys p d e t).outcome = .execed v) ∨
    ((tramp_tail56 sys p d e t).outcome = .killed ∧
      ∃ t0, (tramp_tail56 sys p d e t).trace =
        t0 ++ [Action.failWrite, Action.raiseSigkill]) := by
  by_cases h : sys.exec_ok = true
  · exact Or.inl ⟨execVariantOf { d with childpid := p },
      by simp [tramp_tail56, h]⟩
  · have h2 : sys.exec_ok = false := by simpa using h
    refine Or.inr ⟨by simp [tramp_tail56, h2, failLabel], ?_⟩
    exact ⟨t ++ [Action.recordPid p,
      Action.execCall (execVariantOf { d with childpid := p })],
      by simp [tramp_tail56, h2, failLabel]⟩

theorem tramp_tail_shape (sys : Sys) (p : Int) (d : ExecTrampolineData)
    (e : Int) (t : List Action) :
    (∃ v, (tramp_tail sys p d e t).outcome = .execed v) ∨
    ((tramp_tail sys p d e t).outcome = .killed ∧
      ∃ t0, (tramp_tail sys p d e t).trace =
        t0 ++ [Action.failWrite, Action.raiseSigkill]) := by
  by_cases hz : d.sigign = 0
  · have heq : tramp_tail sys p d e t = tramp_tail56 sys p d e t := by
      simp [tramp_tail, hz]
    rw [heq]
    exact tramp_tail56_shape sys p d e t
  · by_cases hok : (sigignLoop sys d.sigign 0).2 = true
    · have heq : tramp_tail sys p d e t = tramp_tail56 sys p
          { d with sigign := 0 } e
          (t ++ (sigignLoop sys d.sigign 0).1.map Action.sigIgnore) := by
        simp [tramp_tail, hz, hok]
      rw [heq]
      exact tramp_tail56_shape sys p { d with sigign := 0 } e _
    · have hok2 : (sigignLoop sys d.sigign 0).2 = false := by simpa using hok
      have heq : tramp_tail sys p d e t = failLabel { d with sigign := 0 }
          sys.signal_errno (some "signal")
          (t ++ (sigignLoop sys d.sigign 0).1.map Action.sigIgnore) := by
        simp [tramp_tail, hz, hok2]
      rw [heq]
      exact Or.inr ⟨rfl, _, rfl⟩

/-- C2: on every failure path of the trampoline (`setsid`,
`PR_SET_PDEATHSIG`, the doublefork `clone`, a `signal` call, or any exec
variant failing), the trampoline writes the failed step's name and the OS
error code into the shared descriptor and then raises the uncatchable
SIGKILL at itself; one invocation never returns normally: it either
replaces its image or ends in the `fail:` stores followed by
`raise(SIGKILL)`. -/
theorem C2_failure_paths_converge :
    (∀ (sys : Sys) (p : Int) (d : ExecTrampolineData) (e : Int),
      (∃ v, (exec_trampoline sys p d e).outcome = .execed v) ∨
      ((exec_trampoline sys p d e).outcome = .killed ∧
        ∃ t0, (exec_trampoline sys p d e).trace =
          t0 ++ [Action.failWrite, Action.raiseSigkill])) ∧
    (∀ sys p d e, d.setsid_flag = true → sys.setsid_ok = false →
      (exec_trampoline sys p d e).data.fn = some "setsid" ∧
      (exec_trampoline sys p d e).data.error = sys.setsid_errno ∧
      (exec_trampoline sys p d e).outcome = .killed) ∧
    (∀ sys p d e, (d.setsid_flag = false ∨ sys.setsid_ok = true) →
      0 ≤ d.parent_signal → sys.prctl_ok = false →
      (exec_trampoline sys p d e).data.fn = some "PR_SET_PDEATHSIG" ∧
      (exec_trampoline sys p d e).data.error = sys.prctl_errno ∧
      (exec_trampoline sys p d e).outcome = .killed) ∧
    (∀ sys p d e, (d.setsid_flag = false ∨ sys.setsid_ok = true) →
      (d.parent_signal < 0 ∨ sys.prctl_ok = true) →
      d.doublefork = true → sys.clone2_ok = false →
      (exec_trampoline sys p d e).data.fn = some "clone(doublefork)" ∧
      (exec_trampoline sys p d e).data.error = sys.clone2_errno ∧
      (exec_trampoline sys p d e).outcome = .killed) ∧
    (∀ sys p d e, (d.setsid_flag = false ∨ sys.setsid_ok = true) →
      (d.parent_signal < 0 ∨ sys.prctl_ok = true) →
      d.doublefork = false → d.sigign ≠ 0 →
      (sigignLoop sys d.sigign 0).2 = false →
      (exec_trampoline sys p d e).data.fn = some "signal" ∧
      (exec_trampoline sys p d e).data.error = sys.signal_errno ∧
      (exec_trampoline sys p d e).outcome = .killed) ∧
    (∀ sys p d e, (d.setsid_flag = false ∨ sys.setsid_ok = true) →
      (d.parent_signal < 0 ∨ sys.prctl_ok = true) →
      d.doublefork = false →
      (d.sigign = 0 ∨ (sigignLoop sys d.sigign 0).2 = true) →
      sys.exec_ok = false →
      (exec_trampoline sys p d e).data.fn =
        some (execVariantName (execVariantOf d)) ∧
      (exec_trampoline sys p d e).data.error = sys.exec_errno ∧
      (exec_trampoline sys p d e).outcome = .killed) := by
  refine ⟨?_, ?_, ?_, ?_, ?_, ?_⟩
  · intro sys p d e
    by_cases c1 : d.setsid_flag = true ∧ sys.setsid_ok = false
    · rw [exec_trampoline_inr (tramp_head_fail_setsid c1.1 c1.2)]
      exact Or.inr ⟨rfl, _, rfl⟩
    · have h1 : d.setsid_flag = false ∨ sys.setsid_ok = true := by
        cases hfs : d.setsid_flag <;> cases hss : sys.setsid_ok <;> simp_all
      by_cases c2 : 0 ≤ d.parent_signal ∧ sys.prctl_ok = false
      · rw [exec_trampoline_inr (tramp_head_fail_prctl h1 c2.1 c2.2)]
        exact Or.inr ⟨rfl, _, rfl⟩
      · have h2 : d.parent_signal < 0 ∨ sys.prctl_ok = true := by
          by_cases hps : 0 ≤ d.parent_signal
          · right
            cases hp : sys.prctl_ok
            · exact absurd ⟨hps, hp⟩ c2
            · rfl
          · left; omega
        by_cases cdf : d.doublefork = true
        · by_cases hc : sys.clone2_ok = true
          · rw [exec_trampoline_df_ok h1 h2 cdf hc]
            exact Or.inr ⟨rfl, headTrace d ++ [Action.cloneDoublefork], by simp⟩
          · rw [exec_trampoline_df_fail h1 h2 cdf (by simpa using hc)]
            exact Or.inr ⟨rfl, _, rfl⟩
        · rw [exec_trampoline_nodf h1 h2 (by simpa using cdf)]
          exact tramp_tail_shape sys p (postHeadData d) e (headTrace d)
  · intro sys p d e hs hok
    rw [exec_trampoline_inr (tramp_head_fail_setsid hs hok)]
    exact ⟨rfl, rfl, rfl⟩
  · intro sys p d e h1 hps hok
    rw [exec_trampoline_inr (tramp_head_fail_prctl h1 hps hok)]
    exact ⟨rfl, rfl, rfl⟩
  · intro sys p d e h1 h2 hdf hc
    rw [exec_trampoline_df_fail h1 h2 hdf hc]
    exact ⟨rfl, rfl, rfl⟩
  · intro sys p d e h1 h2 hdf hsig hloop
    rw [exec_trampoline_nodf h1 h2 hdf]
    have hsig2 : (postHeadData d).sigign ≠ 0 := by simpa [postHeadData] using hsig
    simp only [tramp_tail, hsig2, if_true, ne_eq, not_false_eq_true]
    have hloop2 : (sigignLoop sys (postHeadData d).sigign 0).2 = false := by
      simpa [postHeadData] using hloop
    simp [hloop2, failLabel]
  · intro sys p d e h1 h2 hdf hsig hexec
    rw [exec_trampoline_nodf h1 h2 hdf]
    rcases hsig with hsig | hsig
    · simp [tramp_tail, tramp_tail56, hsig, hexec, failLabel, execVariantOf,
        postHeadData]
    · by_cases hz : d.sigign = 0
      · simp [tramp_tail, tramp_tail56, hz, hexec, failLabel, execVariantOf,
          postHeadData]
      · simp [tramp_tail, tramp_tail56, hz, hsig, hexec, failLabel,
          execVariantOf, postHeadData]

/-- C2 witness: a failing `setsid` (errno 13) is recorded as step
"setsid" with error 13, and the invocation ends killed. -/
theorem C2_failure_paths_converge_witness :
    dSetsid.setsid_flag = true ∧ sysSetsidFail.setsid_ok = false ∧
    (exec_trampoline sysSetsidFail 42 dSetsid 0).data.fn = some "setsid" ∧
    (exec_trampoline sysSetsidFail 42 dSetsid 0).data.error = 13 ∧
    (exec_trampoline sysSetsidFail 42 dSetsid 0).outcome = .killed := by
  have h := C2_failure_paths_converge.2.1 sysSetsidFail 42 dSetsid 0 rfl rfl
  exact ⟨rfl, rfl, h.1, h.2.1, h.2.2⟩

/-- C4: under double-fork, the middle context clears the doublefork flag,
creates the grandchild running the same trampoline with the session and
doublefork flags already cleared, then unconditionally terminates itself;
its terminal descriptor reports only the success (`fun = NULL`) or
failure (`fun = "clone(doublefork)"`) of the recursive clone itself,
never the grandchild's exec outcome — on clone success the middle's final
`fail:` stores overwrite `fun` with NULL whatever the grandchild wrote. -/
theorem C4_doublefork_middle_reports_clone_only :
    ∀ (sys : Sys) (p : Int) (d : ExecTrampolineData) (e : Int),
      (d.setsid_flag = false ∨ sys.setsid_ok = true) →
      (d.parent_signal < 0 ∨ sys.prctl_ok = true) →
      d.doublefork = true →
      (({ postHeadData d with doublefork := false } :
          ExecTrampolineData).setsid_flag = false ∧
        ({ postHeadData d with doublefork := false } :
          ExecTrampolineData).doublefork = false) ∧
      (sys.clone2_ok = true →
        exec_trampoline sys p d e =
          { data := { (exec_trampoline sys sys.pid2
                { postHeadData d with doublefork := false } e).data with
              fn := none,
              error := (exec_trampoline sys sys.pid2
                { postHeadData d with doublefork := false } e).errno },
            errno := (exec_trampoline sys sys.pid2
              { postHeadData d with doublefork := false } e).errno,
            trace := headTrace d ++
              [Action.cloneDoublefork, Action.failWrite, Action.raiseSigkill],
            outcome := .killed }) ∧
      (sys.clone2_ok = false →
        (exec_trampoline sys p d e).data.fn = some "clone(doublefork)" ∧
        (exec_trampoline sys p d e).data.error = sys.clone2_errno ∧
        (exec_trampoline sys p d e).outcome = .killed) ∧
      (exec_trampoline sys p d e).outcome = .killed ∧
      (sys.clone2_ok = true → (exec_trampoline sys p d e).data.fn = none) := by
  intro sys p d e h1 h2 hdf
  refine ⟨⟨by simp [postHeadData], rfl⟩, ?_, ?_, ?_, ?_⟩
  · intro hc
    exact exec_trampoline_df_ok h1 h2 hdf hc
  · intro hc
    rw [exec_trampoline_df_fail h1 h2 hdf hc]
    exact ⟨rfl, rfl, rfl⟩
  · by_cases hc : sys.clone2_ok = true
    · rw [exec_trampoline_df_ok h1 h2 hdf hc]
    · rw [exec_trampoline_df_fail h1 h2 hdf (by simpa using hc)]
      rfl
  · intro hc
    rw [exec_trampoline_df_ok h1 h2 hdf hc]

/-- C4 witness: with the grandchild's exec failing (ENOENT), the middle
context still ends killed with `fun` reported as NULL (success of the
clone), not as the grandchild's exec failure. -/
theorem C4_doublefork_middle_reports_clone_only_witness :
    dDouble.doublefork = true ∧ sysExecFail.clone2_ok = true ∧
    sysExecFail.exec_ok = false ∧
    (exec_trampoline sysExecFail 42 dDouble 0).data.fn = none ∧
    (exec_trampoline sysExecFail 42 dDouble 0).outcome = .killed := by
  have h := C4_doublefork_middle_reports_clone_only sysExecFail 42 dDouble 0
    (Or.inr rfl) (Or.inr rfl) rfl
  exact ⟨rfl, rfl, rfl, h.2.2.2.2 rfl, h.2.2.2.1⟩

/-- C5 counterexample: the claim says a `parent_signal` value of 0 means
the parent-death-signal step is not re-applied on a re-entrant pass.  In
the code the guard is `parent_signal >= 0`, which 0 satisfies, so on a
descriptor whose `parent_signal` a first pass has cleared to 0 the
trampoline issues `prctl(PR_SET_PDEATHSIG, 0)` again. -/
theorem C5_zero_field_reapplies_prctl :
    Action.prctlSetPdeathsig 0 ∈ (exec_trampoline sysAllOk 42 dReentered 0).trace := by
  rw [exec_trampoline_trace]
  simp [ownTrace, headTrace, tailTrace, postHeadData, dReentered,
    mkTrampolineData, sysAllOk]

/-- C5 (amended): the field is cleared to 0 before the prctl call is
issued (observable because a failing prctl still leaves the field 0); but
0 does not mean "skip": the guard is `parent_signal >= 0`, so a value of
0 re-runs the step requesting signal 0, and only a negative sentinel
(the default -1) makes the step skip. -/
theorem C5_parent_signal_clearing :
    (∀ (sys : Sys) (p : Int) (d : ExecTrampolineData) (e : Int),
      (d.setsid_flag = false ∨ sys.setsid_ok = true) →
      0 ≤ d.parent_signal → sys.prctl_ok = false →
      (exec_trampoline sys p d e).data.parent_signal = 0) ∧
    (∀ sys p d e, (d.setsid_flag = false ∨ sys.setsid_ok = true) →
      d.parent_signal = 0 → sys.prctl_ok = true →
      Action.prctlSetPdeathsig 0 ∈ (exec_trampoline sys p d e).trace) ∧
    (∀ sys p d e s, d.parent_signal < 0 →
      Action.prctlSetPdeathsig s ∉ (exec_trampoline sys p d e).trace) := by
  refine ⟨?_, ?_, ?_⟩
  · intro sys p d e h1 hps hok
    rw [exec_trampoline_inr (tramp_head_fail_prctl h1 hps hok)]
    simp [failLabel, postHeadData, hps]
  · intro sys p d e h1 hps hok
    rw [exec_trampoline_trace]
    unfold ownTrace
    have hc1 : ¬(d.setsid_flag = true ∧ sys.setsid_ok = false) := by
      rcases h1 with h1 | h1 <;> simp [h1]
    have hc2 : ¬(0 ≤ d.parent_signal ∧ sys.prctl_ok = false) := by
      simp [hok]
    rw [if_neg hc1, if_neg hc2]
    have hmem : Action.prctlSetPdeathsig 0 ∈ headTrace d := by
      simp [headTrace, hps]
    split_ifs <;> exact List.mem_append_left _ hmem
  · intro sys p d e s hneg h
    rw [exec_trampoline_trace] at h
    have := (ownTrace_prctl h).2
    omega

/-- C5 witness: with the default sentinel -1 the step is skipped — no
prctl action at all appears in the trace. -/
theorem C5_parent_signal_clearing_witness :
    dPlain.parent_signal < 0 ∧
    Action.prctlSetPdeathsig 5 ∉ (exec_trampoline sysAllOk 42 dPlain 0).trace :=
  ⟨by decide, C5_parent_signal_clearing.2.2 sysAllOk 42 dPlain 0 5 (by decide)⟩

/-- C9: SIGKILL and SIGSTOP are accepted during encoding of the ignore
mask without error, but the signal-ignore application step skips them:
any `signal(n, SIG_IGN)` call the trampoline makes has `n` a set bit of
the mask with `n` neither SIGKILL nor SIGSTOP, and when every `signal`
call succeeds the calls are exactly the set bits minus those two. -/
theorem C9_forbidden_signals_skipped :
    sigign_converter (.pylist [9, 19]) = .ok (2 ^ 8 + 2 ^ 18) ∧
    (∀ (sys : Sys) (p : Int) (d : ExecTrampolineData) (e : Int) (n : Nat),
      Action.sigIgnore n ∈ (exec_trampoline sys p d e).trace →
      1 ≤ n ∧ Nat.testBit d.sigign (n - 1) = true ∧ n ≠ SIGKILL ∧ n ≠ SIGSTOP) ∧
    (∀ sys : Sys, (∀ s, sys.signal_ok s = true) → ∀ m n : Nat,
      n ∈ (sigignLoop sys m 0).1 ↔
        (1 ≤ n ∧ Nat.testBit m (n - 1) = true ∧ n ≠ SIGKILL ∧ n ≠ SIGSTOP)) := by
  refine ⟨rfl, ?_, ?_⟩
  · intro sys p d e n h
    rw [exec_trampoline_trace] at h
    have h2 := ownTrace_sigIgnore h
    have h3 := sigignLoop_mem h2.2
    refine ⟨h3.1, ?_, h3.2.2.1, h3.2.2.2⟩
    simpa using h3.2.1
  · intro sys hok m n
    constructor
    · intro h
      have h3 := sigignLoop_mem h
      refine ⟨h3.1, ?_, h3.2.2.1, h3.2.2.2⟩
      simpa using h3.2.1
    · rintro ⟨hn1, hbit, hk, hs⟩
      exact sigignLoop_mem_of hok hn1 (by simpa using hbit) hk hs

/-- C9 witness: on the mask with bits for signals 9 (SIGKILL) and 10 set,
signal 10 is applied and signal 9 is not. -/
theorem C9_forbidden_signals_skipped_witness :
    (∀ s, sysAllOk.signal_ok s = true) ∧
    10 ∈ (sigignLoop sysAllOk 768 0).1 ∧
    9 ∉ (sigignLoop sysAllOk 768 0).1 := by
  refine ⟨fun _ => rfl, ?_, ?_⟩
  · exact (C9_forbidden_signals_skipped.2.2 sysAllOk (fun _ => rfl) 768 10).mpr
      (by decide)
  · intro h
    have := (C9_forbidden_signals_skipped.2.2 sysAllOk (fun _ => rfl) 768 9).mp h
    exact absurd rfl this.2.2.1

/-- C1: the trampoline executes its steps in the fixed order
session-detach, parent-death-signal arm, double-fork detach,
signal-ignore application, record self pid, image replacement, terminal
failure (formalised by the monotone `actIdx` position along any
invocation's own trace); each step's trigger field is cleared on entry
before acting on it (observable because a step's own failure still leaves
its trigger cleared in the final descriptor); and a re-entrant second
pass — the grandchild invocation created by double-fork — skips the work
already done: it performs no `setsid`, no second doublefork `clone`, and
never re-arms the originally requested parent-death signal (its only
possible prctl action carries 0). -/
theorem C1_fixed_order_and_consume_before_act :
    (∀ (sys : Sys) (p : Int) (d : ExecTrampolineData) (e : Int),
      List.Pairwise (fun a b => actIdx a ≤ actIdx b)
        (exec_trampoline sys p d e).trace) ∧
    (∀ sys p d e, d.setsid_flag = true → sys.setsid_ok = false →
      (exec_trampoline sys p d e).data.setsid_flag = false) ∧
    (∀ sys p d e, (d.setsid_flag = false ∨ sys.setsid_ok = true) →
      0 ≤ d.parent_signal → sys.prctl_ok = false →
      (exec_trampoline sys p d e).data.parent_signal = 0) ∧
    (∀ sys p d e, (d.setsid_flag = false ∨ sys.setsid_ok = true) →
      (d.parent_signal < 0 ∨ sys.prctl_ok = true) →
      d.doublefork = true → sys.clone2_ok = false →
      (exec_trampoline sys p d e).data.doublefork = false) ∧
    (∀ sys p d e, (d.setsid_flag = false ∨ sys.setsid_ok = true) →
      (d.parent_signal < 0 ∨ sys.prctl_ok = true) →
      d.doublefork = false → d.sigign ≠ 0 →
      (sigignLoop sys d.sigign 0).2 = false →
      (exec_trampoline sys p d e).data.sigign = 0) ∧
    (∀ (sys : Sys) (p : Int) (d : ExecTrampolineData) (e : Int),
      (d.setsid_flag = false ∨ sys.setsid_ok = true) →
      (d.parent_signal < 0 ∨ sys.prctl_ok = true) →
      d.doublefork = true →
      Action.setsidCall ∉ (exec_trampoline sys sys.pid2
        { postHeadData d with doublefork := false } e).trace ∧
      Action.cloneDoublefork ∉ (exec_trampoline sys sys.pid2
        { postHeadData d with doublefork := false } e).trace ∧
      (∀ s, Action.prctlSetPdeathsig s ∈ (exec_trampoline sys sys.pid2
        { postHeadData d with doublefork := false } e).trace → s = 0)) := by
  refine ⟨?_, ?_, ?_, ?_, ?_, ?_⟩
  · intro sys p d e
    rw [exec_trampoline_trace]
    exact ownTrace_pairwise sys p d
  · intro sys p d e hs hok
    rw [exec_trampoline_inr (tramp_head_fail_setsid hs hok)]
    simp [failLabel]
  · intro sys p d e h1 hps hok
    rw [exec_trampoline_inr (tramp_head_fail_prctl h1 hps hok)]
    simp [failLabel, postHeadData, hps]
  · intro sys p d e h1 h2 hdf hc
    rw [exec_trampoline_df_fail h1 h2 hdf hc]
    simp [failLabel]
  · intro sys p d e h1 h2 hdf hsig hloop
    rw [exec_trampoline_nodf h1 h2 hdf]
    have hsig2 : (postHeadData d).sigign ≠ 0 := by simpa [postHeadData] using hsig
    have hloop2 : (sigignLoop sys (postHeadData d).sigign 0).2 = false := by
      simpa [postHeadData] using hloop
    simp [tramp_tail, hsig2, hloop2, failLabel]
  · intro sys p d e h1 h2 hdf
    refine ⟨?_, ?_, ?_⟩
    · intro h
      rw [exec_trampoline_trace] at h
      have := ownTrace_setsid h
      simp [postHeadData] at this
    · intro h
      rw [exec_trampoline_trace] at h
      have := ownTrace_clone h
      simp at this
    · intro s h
      rw [exec_trampoline_trace] at h
      have hp := ownTrace_prctl h
      have hval : ({ postHeadData d with doublefork := false } :
          ExecTrampolineData).parent_signal =
          (if 0 ≤ d.parent_signal then 0 else d.parent_signal) := rfl
      rw [hval] at hp
      by_cases hps : 0 ≤ d.parent_signal
      · rw [if_pos hps] at hp
        exact hp.1
      · rw [if_neg hps] at hp
        omega

/-- C1 witness: the grandchild invocation spawned for `dDouble` performs
no `setsid` call. -/
theorem C1_fixed_order_and_consume_before_act_witness :
    dDouble.doublefork = true ∧
    Action.setsidCall ∉ (exec_trampoline sysAllOk sysAllOk.pid2
      { postHeadData dDouble with doublefork := false } 0).trace :=
  ⟨rfl, (C1_fixed_order_and_consume_before_act.2.2.2.2.2 sysAllOk 42 dDouble 0
    (Or.inr rfl) (Or.inr rfl) rfl).1⟩

end Pdeathsignal
